import Mathlib

/-!
Verification of the archive-ETL worker-pool pipeline
(`gc3libs/etc/archive-etl.py` and `gc3libs/etc/unpack-swift.py`).

The Python sources are shallowly embedded below.  External library calls
(`json.loads`, `csv.Sniffer().sniff`, `csv.reader`, `bz2.decompress`,
`str`/`json.dumps` renderings, Swift uploads) are taken as function
parameters, so every theorem quantifies over their behaviour; concrete
witnesses instantiate them with small executable functions consistent with
the real libraries.
-/

namespace ArchiveEtl

/-! ### Python string primitives, modelled over the character list -/

/-- Auxiliary splitter: `splitCharAux c cs acc` splits `cs` at every
occurrence of `c`, with `acc` the (reversed) characters of the current
field.  Models Python `str.split(c)` which always returns at least one
(possibly empty) field. -/
def splitCharAux (c : Char) : List Char → List Char → List String
  | [], acc => [String.mk acc.reverse]
  | x :: xs, acc =>
    if x = c then String.mk acc.reverse :: splitCharAux c xs []
    else splitCharAux c xs (x :: acc)

/-- Python `data.split('\n')`. -/
def pySplitNl (s : String) : List String :=
  splitCharAux '\n' s.data []

/-- Python `data.splitlines()`: like `split('\n')` but without a trailing
empty field when the string ends in a newline (and `[]` on `""`). -/
def pySplitlines (s : String) : List String :=
  let parts := pySplitNl s
  if parts.getLast? = some "" then parts.dropLast else parts

/-- Python `line.startswith("#")`. -/
def startsWithHash (s : String) : Bool :=
  match s.data with
  | [] => false
  | c :: _ => c = '#'

/-- Python `name.endswith('/')` (the zip directory marker). -/
def endsWithSlash (s : String) : Bool :=
  s.data.getLast? = some '/'

/-- First element of a split (Python `lines[0]`; a `split` result is never
empty, so the default is unreachable). -/
def firstLine (lines : List String) : String :=
  match lines with
  | [] => ""
  | l :: _ => l

/-! ### Format decoder (`archive-etl.py`, class `Decoder`) -/

/-- The three classifications `_detect_data_type_` can produce. -/
inductive DataType
  | csv
  | json
  | text
deriving DecidableEq, Repr

/-- A CSV dialect as used by the decoder: the two fields of the sniffed
`csv.Dialect` that the code reads (`delimiter`, `quotechar`). -/
structure Dialect where
  delimiter : Char
  quotechar : Char
deriving DecidableEq, Repr

instance : Inhabited Dialect := ⟨⟨',', '"'⟩⟩

/-- The decoder's instance state: `self._dialect` and `self._data_type`,
both `None` after `__init__`. -/
structure Decoder where
  dialect : Option Dialect := none
  data_type : Option DataType := none
deriving DecidableEq, Repr

/-- One decoded element: a CSV row (list of fields) or a JSON object.
`J` is the type of parsed JSON values. -/
inductive Row (J : Type)
  | csvRow (fields : List String)
  | jsonObj (o : J)
deriving DecidableEq, Repr

/-- The scan loop of `_detect_data_type_` over the (pre-computed) slice
`lines[1:ins]`.  Python evaluates the slice once when the `for` loop
starts, so `ins += 1` inside the loop changes only the counter used by the
`ins == len(lines)` comparison, never the iterated lines. -/
def detectLoop (sniff : String → Dialect) (d0 : Dialect) (total : Nat) :
    Nat → List String → DataType
  | _, [] => .csv
  | ins, l :: rest =>
    if startsWithHash l then
      if ins = total then .text
      else detectLoop sniff d0 total (ins + 1) rest
    else if (sniff l).delimiter ≠ d0.delimiter ∨ (sniff l).quotechar ≠ d0.quotechar then .text
    else detectLoop sniff d0 total ins rest

/-- `Decoder._detect_data_type_`.  Returns the classification together with
the dialect assignment performed on `self._dialect` (`none` when the method
returned through one of the JSON branches, before the assignment).
`loads s = none` models `json.loads` raising `ValueError`. -/
def detect_data_type {J : Type} (loads : String → Option (List J))
    (sniff : String → Dialect) (data : String) : DataType × Option Dialect :=
  if (loads data).isSome then (.json, none)
  else if (loads (firstLine (pySplitNl data))).isSome then (.json, none)
  else
    let lines := pySplitNl data
    let ins := if lines.length ≤ 10 then lines.length else 10
    let d0 := sniff (firstLine lines)
    (detectLoop sniff d0 lines.length ins ((lines.take ins).drop 1), some d0)

/-- `Decoder._decode_json_`: yield the elements of `json.loads(data)` when
it succeeds, then — unconditionally — the elements of `json.loads(line)`
for every line of `data.splitlines()`, skipping lines that fail. -/
def decode_json {J : Type} (loads : String → Option (List J)) (data : String) :
    List J :=
  ((loads data).getD []) ++
    (pySplitlines data).foldr (fun l acc => ((loads l).getD []) ++ acc) []

/-- `Decoder._decode_csv_`: parse each line of `data.splitlines()` with the
cached dialect.  `csvLine` models one `csv.reader` row.  (When
`self._dialect` is `None` the Python code would raise `AttributeError`;
that state is unreachable because `decode` always runs detection first,
which assigns the dialect on every non-JSON path.) -/
def decode_csv {J : Type} (csvLine : Dialect → String → List String)
    (st : Decoder) (data : String) : List (Row J) :=
  (pySplitlines data).map (fun l => .csvRow (csvLine (st.dialect.getD default) l))

/-- `Decoder.decode`: run `_detect_data_type_` if `self._data_type` is still
`None` (caching classification and dialect on the instance), then decode
according to the cached classification.  For `text` (and any other
classification) the result list stays empty. -/
def Decoder.decode {J : Type} (loads : String → Option (List J))
    (sniff : String → Dialect) (csvLine : Dialect → String → List String)
    (st : Decoder) (data : String) : List (Row J) × Decoder :=
  let st' :=
    if st.data_type.isNone then
      let td := detect_data_type loads sniff data
      { st with
        data_type := some td.1
        dialect := match td.2 with
          | some d => some d
          | none => st.dialect }
    else st
  if st'.data_type = some .csv then
    (decode_csv csvLine st' data, st')
  else if st'.data_type = some .json then
    ((decode_json loads data).map .jsonObj, st')
  else ([], st')

/-- `extract_file`: opportunistic `bz2.decompress` (pass the data through
unchanged when it raises, modelled by `decompress` returning `none`),
then `Decoder().decode(data)` — note the freshly constructed `Decoder`. -/
def extract_file {J : Type} (loads : String → Option (List J))
    (sniff : String → Dialect) (csvLine : Dialect → String → List String)
    (decompress : String → Option String) (data_file : String) : List (Row J) :=
  let d := (decompress data_file).getD data_file
  (Decoder.decode loads sniff csvLine {} d).1

/-! ### Writer-side formatting (`archive-etl.py`, `post_data_to_writer`) -/

/-- `';'.join(row)` for the elements put on the writer queue in the `csv`
branch.  On a `csvRow` this is the literal semicolon join; on a JSON object
Python's `join` would need an iterable of strings, modelled by the
`joinObj` parameter. -/
def joinSemicolon {J : Type} (joinObj : J → String) : Row J → String
  | .csvRow fields => String.intercalate ";" fields
  | .jsonObj o => joinObj o

/-- `post_data_to_writer(data, wq, ot)`: the list of messages put on the
writer queue, in order.  `dumpsDict` models `json.dumps(dict(data))`
applied to the whole decoded list; `strOf` models Python `str(data)`. -/
def post_data_to_writer {J : Type} (joinObj : J → String)
    (dumpsDict : List (Row J) → String) (strOf : List (Row J) → String)
    (data : List (Row J)) (ot : String) : List String :=
  if ot = "csv" then data.map (joinSemicolon joinObj)
  else if ot = "json" then [dumpsDict data]
  else [strOf data]

/-! ### Local-variant worker (`archive-etl.py`, `process_archive`)

A worker repeatedly takes an item from the file queue; a string equal to
`"EOP"` is the termination sentinel.  For a zip archive the queue holds the
member path strings produced by the indexer, and `extract_zip_file` reads
the member bytes, runs `extract_file` and `post_data_to_writer`.  The
queue content (items in dequeue order, as seen by this worker) is modelled
as a list. -/

/-- The writer-queue messages produced by `extract_zip_file` for one zip
member path `f`; `zipRead f` models `ZipFile.read(f)`. -/
def extract_zip_messages {J : Type} (loads : String → Option (List J))
    (sniff : String → Dialect) (csvLine : Dialect → String → List String)
    (decompress : String → Option String) (joinObj : J → String)
    (dumpsDict : List (Row J) → String) (strOf : List (Row J) → String)
    (zipRead : String → String) (ot : String) (f : String) : List String :=
  post_data_to_writer joinObj dumpsDict strOf
    (extract_file loads sniff csvLine decompress (zipRead f)) ot

/-- `process_archive` for a zip archive: all writer-queue messages this
worker produces from its dequeue sequence, stopping at the first
`"EOP"` sentinel. -/
def process_archive_local_zip {J : Type} (loads : String → Option (List J))
    (sniff : String → Dialect) (csvLine : Dialect → String → List String)
    (decompress : String → Option String) (joinObj : J → String)
    (dumpsDict : List (Row J) → String) (strOf : List (Row J) → String)
    (zipRead : String → String) (ot : String) : List String → List String
  | [] => []
  | f :: rest =>
    if f = "EOP" then []
    else extract_zip_messages loads sniff csvLine decompress joinObj dumpsDict
        strOf zipRead ot f ++
      process_archive_local_zip loads sniff csvLine decompress joinObj
        dumpsDict strOf zipRead ot rest

/-- The member paths a `process_archive` worker actually extracts from a
zip archive, in order: every dequeued item before the first one that
passes the sentinel test `isinstance(f, basestring) and f == 'EOP'`. -/
def worker_extracted_members : List String → List String
  | [] => []
  | f :: rest =>
    if f = "EOP" then []
    else f :: worker_extracted_members rest

/-! ### Member indexer (`queue_archive_files`, identical in both scripts) -/

/-- One zip entry as the code sees it: its path inside the archive and its
`ZipInfo.file_size`.  Zip marks directories with a trailing `/` in the
path; the regular-file flag of the spec's data model is its negation. -/
structure ZipEntry where
  name : String
  file_size : Nat
deriving DecidableEq, Repr

/-- One tar member as the code sees it: `TarInfo.name`, `TarInfo.size`, and
the regular-file flag `TarInfo.isreg()`. -/
structure TarMember where
  name : String
  size : Nat
  isreg : Bool
deriving DecidableEq, Repr

/-- `ZipFile.getinfo(archive, name)`: look the entry up by name.  With
duplicate names the zip name index keeps the last occurrence, hence the
reversed search. -/
def ZipFile_getinfo (archive : List ZipEntry) (n : String) : Option ZipEntry :=
  archive.reverse.find? (fun e => e.name = n)

/-- The zip branch of `queue_archive_files`: iterate `archive.namelist()`
and put every name that does not end in `/` and whose `getinfo` entry has
`file_size > 0` on the file queue. -/
def queue_archive_files_zip (archive : List ZipEntry) : List String :=
  (archive.map ZipEntry.name).filter (fun n =>
    !endsWithSlash n &&
      match ZipFile_getinfo archive n with
      | some e => decide (0 < e.file_size)
      | none => false)

/-- The tar branch of `queue_archive_files`: put every member with
`isreg() and size > 0` on the file queue (the `TarInfo` objects
themselves, not their names). -/
def queue_archive_files_tar (archive : List TarMember) : List TarMember :=
  archive.filter (fun m => m.isreg && decide (0 < m.size))

/-- The archive as the scripts probe it: `is_zipfile` matches `zip`,
`tarfile.is_tarfile` matches `tar`, and `invalid` is a path that is
neither. -/
inductive ArchiveInput
  | zip (entries : List ZipEntry)
  | tar (members : List TarMember)
  | invalid
deriving DecidableEq

/-- A work item on the file queue: a zip member path or a tar member. -/
inductive WorkItem
  | zipName (s : String)
  | tarMem (m : TarMember)
deriving DecidableEq, Repr

/-- `queue_archive_files(ap, fq)`: the enqueued work items, or the
`IOError` raised when the archive is neither zip nor tar (raised before
any item is enqueued). -/
def queue_archive_files : ArchiveInput → Except String (List WorkItem)
  | .zip es => .ok ((queue_archive_files_zip es).map .zipName)
  | .tar ms => .ok ((queue_archive_files_tar ms).map .tarMem)
  | .invalid => .error "could not match archive to zip or tar format"

/-! ### Coordinator (`archive-etl.py` / `unpack-swift.py`, `__main__`)

The `__main__` block is sequential: the order of its queue operations and
joins is the program order.  `Process.join` returns only after the child
has exited, so every queue `put` the child performed precedes the join in
the event order; an exception inside a child terminates only that child
and `join` in the parent still returns normally. -/

/-- One coordinator-visible event.  `M` is the type of real work items. -/
inductive Ev (M : Type)
  | putWork (m : M)
  | putWorkSentinel
  | indexerJoined
  | workerJoined (i : Nat)
  | putOutSentinel
  | writerJoined
deriving DecidableEq, Repr

/-- The event order of the local-variant (`archive-etl.py`) coordinator:
the indexer enqueues the members `ms`, `indexer.join()` returns, one
`'EOP'` is put on the file queue per worker, each of the `n` workers is
joined, one `'EOP'` is put on the writer queue, and the writer is
joined. -/
def coordinator_trace {M : Type} (ms : List M) (n : Nat) : List (Ev M) :=
  ms.map .putWork ++ [.indexerJoined] ++ List.replicate n .putWorkSentinel ++
    (List.range n).map .workerJoined ++ [.putOutSentinel, .writerJoined]

/-- The event order of the remote-variant (`unpack-swift.py`) coordinator:
as above but with no writer queue and no writer. -/
def coordinator_trace_swift {M : Type} (ms : List M) (n : Nat) : List (Ev M) :=
  ms.map .putWork ++ [.indexerJoined] ++ List.replicate n .putWorkSentinel ++
    (List.range n).map .workerJoined

/-- The observable outcome of one `archive-etl.py` run past the readiness
wait. -/
structure LocalRunResult where
  /-- The exception (if any) that terminated the indexer subprocess; it is
  not propagated to the parent. -/
  indexerError : Option String
  /-- The output artifact: `some lines` when the writer subprocess created
  the output file and wrote these lines, `none` when no file was created. -/
  artifact : Option (List String)
  /-- The parent process exit status. -/
  exitCode : Int
deriving DecidableEq, Repr

/-- The `__main__` block of `archive-etl.py` once the archive path exists:
the writer subprocess opens the output file unconditionally; the indexer's
`IOError` (malformed archive) kills only the indexer subprocess, is
raised before any item is enqueued, and `indexer.join()` in the parent
returns normally, so the run proceeds to a clean shutdown with exit 0.
`workerOut` abstracts the worker pool: the writer-queue lines produced
from the enqueued work items (scheduling-dependent in general). -/
def run_local_pipeline (workerOut : List WorkItem → List String)
    (a : ArchiveInput) : LocalRunResult :=
  let idx := queue_archive_files a
  let items : List WorkItem :=
    match idx with
    | .ok l => l
    | .error _ => []
  { indexerError :=
      match idx with
      | .ok _ => none
      | .error e => some e
    artifact := some (workerOut items)
    exitCode := 0 }

/-! ### Remote-variant worker (`unpack-swift.py`, `process_archive`) -/

/-- One Swift upload performed by `put_object`. -/
structure Upload where
  container : String
  key : String
  contents : String
deriving DecidableEq, Repr

/-- `process_archive` on a zip archive: the file queue holds member path
strings (plus `'EOP'` sentinels); each non-sentinel item is uploaded to
key `'{prefix}{path}'.format(prefix=pf, path=f)` with the member's raw
bytes (`zipRead f`). -/
def process_archive_swift_zip (zipRead : String → String) (con pf : String) :
    List String → List Upload
  | [] => []
  | f :: rest =>
    if f = "EOP" then []
    else { container := con, key := pf ++ f, contents := zipRead f } ::
      process_archive_swift_zip zipRead con pf rest

/-- An item on the file queue of a tar run: a `TarInfo` member enqueued by
the indexer, or a string (the coordinator's `'EOP'` sentinels).  Only a
string can pass the `isinstance(f, basestring) and f == 'EOP'` test. -/
inductive TarQueueItem
  | mem (m : TarMember)
  | strItem (s : String)
deriving DecidableEq, Repr

/-- `process_archive` on a tar archive.  The upload key is
`'{prefix}{path}'.format(prefix=pf, path=archive_file)` where
`archive_file` is the dequeued item itself: for a tar member this
interpolates `str(TarInfo)` (modelled by `tarInfoStr`), not the member's
path.  `tarRead` models extracting a member's bytes, `tarReadStr`
extraction by name for a string item (unreachable in a real run). -/
def process_archive_swift_tar (tarRead : TarMember → String)
    (tarReadStr : String → String) (tarInfoStr : TarMember → String)
    (con pf : String) : List TarQueueItem → List Upload
  | [] => []
  | .strItem s :: rest =>
    if s = "EOP" then []
    else { container := con, key := pf ++ s, contents := tarReadStr s } ::
      process_archive_swift_tar tarRead tarReadStr tarInfoStr con pf rest
  | .mem m :: rest =>
    { container := con, key := pf ++ tarInfoStr m, contents := tarRead m } ::
      process_archive_swift_tar tarRead tarReadStr tarInfoStr con pf rest

/-! ### Spec-side reference models (for refinement comparisons only) -/

/-- Reference model of the spec's §3 `WorkerDecoderState`: the worker keeps
one `Decoder` for its whole lifetime, so classification and dialect are
set on the first member and reused for every later member.  (The code
instead constructs `Decoder()` afresh inside `extract_file` for every
member.) -/
def worker_decode_cached_spec_model {J : Type} (loads : String → Option (List J))
    (sniff : String → Dialect) (csvLine : Dialect → String → List String)
    (decompress : String → Option String) :
    Decoder → List String → List (List (Row J))
  | _, [] => []
  | st, b :: rest =>
    let d := (decompress b).getD b
    let r := Decoder.decode loads sniff csvLine st d
    r.1 :: worker_decode_cached_spec_model loads sniff csvLine decompress r.2 rest

/-- The per-member decoded results the local-variant code produces for the
member payloads `blobs` handled by one worker: a fresh `Decoder` per
member (`extract_file`). -/
def worker_decode_code {J : Type} (loads : String → Option (List J))
    (sniff : String → Dialect) (csvLine : Dialect → String → List String)
    (decompress : String → Option String) (blobs : List String) :
    List (List (Row J)) :=
  blobs.map (extract_file loads sniff csvLine decompress)

/-- Reference model of the spec's §4.1 CSV-vs-text step, following its
words: the sample window really is extended by one line when a comment is
skipped, so later lines come into scope; a comment whose skip would
exhaust the sample yields `text`; a sampled line disagreeing with line 1's
delimiter or quote character yields `text`; completing yields `csv`.
`i` is the current line index, `w` the current window end, and the fuel
argument bounds the recursion (`lines.length` steps always suffice since
`i` grows by one per step and stays below `w ≤ lines.length`). -/
def detect_window_spec_model_go (sniff : String → Dialect) (d0 : Dialect)
    (lines : List String) : Nat → Nat → Nat → DataType
  | 0, _, _ => .csv
  | fuel + 1, i, w =>
    if i < w then
      let line := lines.getD i ""
      if startsWithHash line then
        if w = lines.length then .text
        else detect_window_spec_model_go sniff d0 lines fuel (i + 1) (w + 1)
      else if (sniff line).delimiter ≠ d0.delimiter ∨
          (sniff line).quotechar ≠ d0.quotechar then .text
      else detect_window_spec_model_go sniff d0 lines fuel (i + 1) w
    else .csv

/-- Reference model of the spec's §4.1 CSV-vs-text classification on the
split line list (both JSON attempts assumed failed): sample up to the
first 10 lines, sniff line 1, and scan with a genuinely extending
window. -/
def detect_window_spec_model (sniff : String → Dialect) (lines : List String) :
    DataType :=
  let w := if lines.length ≤ 10 then lines.length else 10
  detect_window_spec_model_go sniff (sniff (firstLine lines)) lines
    lines.length 1 w

/-- The code's CSV-vs-text step on the split line list (the tail of
`_detect_data_type_` after both JSON attempts failed), for comparison
with `detect_window_spec_model`. -/
def detect_csv_text_code (sniff : String → Dialect) (lines : List String) :
    DataType :=
  let ins := if lines.length ≤ 10 then lines.length else 10
  detectLoop sniff (sniff (firstLine lines)) lines.length ins
    ((lines.take ins).drop 1)

/-! ### Helper lemmas -/

/-- In a concatenation `a ++ b`, any occurrence of an element that cannot
occur in `b` comes before any occurrence of an element that cannot occur
in `a`. -/
theorem index_lt_of_append_split {α : Type} {a b : List α} {i j : Nat} {x y : α}
    (hx : (a ++ b)[i]? = some x) (hy : (a ++ b)[j]? = some y)
    (hxb : x ∉ b) (hya : y ∉ a) : i < j := by
  by_cases hi : i < a.length
  · by_cases hj : j < a.length
    · rw [List.getElem?_append_left hj] at hy
      exact absurd (List.getElem?_mem hy) hya
    · omega
  · rw [List.getElem?_append_right (by omega)] at hx
    exact absurd (List.getElem?_mem hx) hxb

/-- With pairwise-distinct entry names, `find?` by name returns the member
itself. -/
theorem find_name_of_nodup :
    ∀ (l : List ZipEntry), (l.map ZipEntry.name).Nodup →
      ∀ e ∈ l, l.find? (fun x => x.name = e.name) = some e := by
  intro l
  induction l with
  | nil => intro _ e he; cases he
  | cons a t ih =>
    intro hn e he
    rw [List.map_cons, List.nodup_cons] at hn
    rw [List.find?_cons]
    rcases List.mem_cons.mp he with rfl | he'
    · simp
    · have hpa : (fun x => decide (x.name = e.name)) a = false := by
        simp only [decide_eq_false_iff_not]
        intro hc
        exact hn.1 (hc ▸ List.mem_map_of_mem ZipEntry.name he')
      simp only [hpa]
      exact ih hn.2 e he'

/-- `ZipFile.getinfo` resolves each entry's own name to that entry when
the archive has no duplicate names. -/
theorem getinfo_self_of_nodup (arch : List ZipEntry) (e : ZipEntry)
    (hn : (arch.map ZipEntry.name).Nodup) (he : e ∈ arch) :
    ZipFile_getinfo arch e.name = some e := by
  unfold ZipFile_getinfo
  exact find_name_of_nodup arch.reverse
    (by rw [List.map_reverse]; exact List.nodup_reverse.mpr hn) e
    (List.mem_reverse.mpr he)

/-- The zip branch of the indexer enqueues exactly the names of the
entries with a non-directory name and positive size, in archive order. -/
theorem zip_queue_eq_filter (arch : List ZipEntry)
    (hn : (arch.map ZipEntry.name).Nodup) :
    queue_archive_files_zip arch =
      (arch.filter
        (fun e => !endsWithSlash e.name && decide (0 < e.file_size))).map
        ZipEntry.name := by
  unfold queue_archive_files_zip
  rw [List.filter_map]
  congr 1
  apply List.filter_congr
  intro e he
  simp only [Function.comp_apply, getinfo_self_of_nodup arch e hn he]

/-- The scan loop classifies `csv` whenever no sampled line is a comment
and every sampled line's sniffed dialect agrees with line 1's. -/
theorem detectLoop_csv_of_agree (sniff : String → Dialect) (d0 : Dialect)
    (total : Nat) :
    ∀ (slice : List String) (ins : Nat),
      (∀ l ∈ slice, startsWithHash l = false ∧
        (sniff l).delimiter = d0.delimiter ∧ (sniff l).quotechar = d0.quotechar) →
      detectLoop sniff d0 total ins slice = .csv := by
  intro slice
  induction slice with
  | nil => intro ins _; rfl
  | cons l rest ih =>
    intro ins h
    have hl := h l (List.mem_cons_self l rest)
    unfold detectLoop
    rw [hl.1]
    simp only [Bool.false_eq_true, if_false, hl.2.1, hl.2.2, ne_eq,
      not_true_eq_false, or_self, if_false]
    exact ih ins (fun x hx => h x (List.mem_cons_of_mem l hx))

/-! ### Concrete library instantiations for witnesses and counterexamples

Small executable stand-ins for the external library calls, each consistent
with the real library on the inputs the concrete theorems use. -/

/-- `json.loads` on inputs that are never valid JSON (plain prose / CSV
rows): always raises `ValueError`. -/
def loadsNone : String → Option (List String) := fun _ => none

/-- `json.loads` on a universe where only the array text `"[1, 2]"` parses
(to its two elements) and everything else raises `ValueError`. -/
def loadsC : String → Option (List String) := fun s =>
  if s = "[1, 2]" then some ["1", "2"] else none

/-- `csv.Sniffer().sniff`: prefers `;` as delimiter when present,
otherwise `,`; quote character always `"`. -/
def sniffC : String → Dialect := fun s =>
  if ';' ∈ s.data then ⟨';', '"'⟩ else ⟨',', '"'⟩

/-- One `csv.reader` row on quote-free input: split at the dialect's
delimiter. -/
def csvLineC : Dialect → String → List String := fun d l =>
  splitCharAux d.delimiter l.data []

/-- `bz2.decompress` on data that is not bz2-compressed: raises `IOError`,
so `extract_file` keeps the original bytes. -/
def decompressC : String → Option String := fun _ => none

/-- `';'.join` applied to a parsed JSON element that happens to be a
string. -/
def joinObjC : String → String := fun s => s

/-- `json.dumps(dict(data))` for the writer's `json` branch (one message
for the whole member, whatever `dict(data)` renders to). -/
def dumpsDictC : List (Row String) → String := fun _ => "{}"

/-- Python `str(data)` on the decoded list: `"[]"` for the empty list. -/
def strOfC : List (Row String) → String := fun l =>
  if l.isEmpty then "[]" else "[nonempty]"

/-- `ZipFile.read`: the raw bytes of a zip member. -/
def zipReadC : String → String := fun f => "bytes:" ++ f

/-- `extractfile(...).read()` for a tar member. -/
def tarReadC : TarMember → String := fun _ => "bytes"

/-- Extraction by name for a string queue item (unreachable in a real tar
run). -/
def tarReadStrC : String → String := fun _ => ""

/-- Python `str` of a `TarInfo` object: the default object repr, not the
member path. -/
def tarInfoStrC : TarMember → String := fun _ => "<tarfile.TarInfo object at 0x7f>"

/-- A 12-line blob whose line 1 is a `#` comment: under the code's fixed
sample window line 10 (`"p;q"`, a disagreeing line) is never sniffed,
while under the spec's extending window it is. -/
def dataC5 : String :=
  "a,b\n#c\nx,y\nx,y\nx,y\nx,y\nx,y\nx,y\nx,y\nx,y\np;q\nr,s"

/-- A worker-pool stand-in for `run_local_pipeline`: a single worker
draining the whole queue of zip names. -/
def workerOutC : List WorkItem → List String := fun items =>
  process_archive_local_zip loadsC sniffC csvLineC decompressC joinObjC
    dumpsDictC strOfC zipReadC "csv"
    (items.map (fun it =>
      match it with
      | .zipName s => s
      | .tarMem m => m.name) ++ ["EOP"])

/-- The local-variant worker drains an `EOP`-terminated queue by
concatenating the per-member messages; no state flows between members. -/
theorem local_zip_run {J : Type} (loads : String → Option (List J))
    (sniff : String → Dialect) (csvLine : Dialect → String → List String)
    (decompress : String → Option String) (joinObj : J → String)
    (dumpsDict strOf : List (Row J) → String) (zipRead : String → String)
    (ot : String) :
    ∀ items : List String, "EOP" ∉ items →
      process_archive_local_zip loads sniff csvLine decompress joinObj
          dumpsDict strOf zipRead ot (items ++ ["EOP"]) =
        items.flatMap (extract_zip_messages loads sniff csvLine decompress
          joinObj dumpsDict strOf zipRead ot) := by
  intro items
  induction items with
  | nil => intro _; simp [process_archive_local_zip]
  | cons f rest ih =>
    intro h
    have hf : f ≠ "EOP" := fun hc => h (hc ▸ List.mem_cons_self f rest)
    simp only [List.cons_append, process_archive_local_zip, if_neg hf,
      List.flatMap_cons, List.append_eq]
    rw [ih (fun hc => h (List.mem_cons_of_mem f hc))]

/-- A worker never extracts a member whose queue item equals the sentinel
string. -/
theorem eop_never_extracted :
    ∀ items : List String, "EOP" ∉ worker_extracted_members items := by
  intro items
  induction items with
  | nil => simp [worker_extracted_members]
  | cons f rest ih =>
    by_cases hf : f = "EOP"
    · simp [worker_extracted_members, hf]
    · simp only [worker_extracted_members, if_neg hf, List.mem_cons]
      rintro (hc | hc)
      · exact hf hc.symm
      · exact ih hc

/-- A worker stops at the first sentinel-string item: later queue items
are never extracted. -/
theorem worker_stops_at_eop :
    ∀ (pre post : List String), "EOP" ∉ pre →
      worker_extracted_members (pre ++ "EOP" :: post) =
        worker_extracted_members pre := by
  intro pre
  induction pre with
  | nil => intro _ _; simp [worker_extracted_members]
  | cons f rest ih =>
    intro post h
    have hf : f ≠ "EOP" := fun hc => h (hc ▸ List.mem_cons_self f rest)
    simp only [List.cons_append, worker_extracted_members, if_neg hf,
      List.append_eq]
    rw [ih post (fun hc => h (List.mem_cons_of_mem f hc))]

/-! ### Claims -/

/-- C1 (amended): in the local-aggregate variant there is no per-worker
decoder cache: `extract_file` constructs a fresh `Decoder()` for every
member, so the format classification (and csv dialect) is re-detected
independently on every member, and a worker's output over its dequeue
sequence is the per-member concatenation of a function of each member
alone. -/
theorem C1_fresh_decoder_per_member {J : Type} (loads : String → Option (List J))
    (sniff : String → Dialect) (csvLine : Dialect → String → List String)
    (decompress : String → Option String) (joinObj : J → String)
    (dumpsDict strOf : List (Row J) → String) (zipRead : String → String)
    (ot : String) (items : List String) (blobs : List String)
    (h : "EOP" ∉ items) :
    process_archive_local_zip loads sniff csvLine decompress joinObj dumpsDict
        strOf zipRead ot (items ++ ["EOP"]) =
      items.flatMap (extract_zip_messages loads sniff csvLine decompress
        joinObj dumpsDict strOf zipRead ot) ∧
    worker_decode_code loads sniff csvLine decompress blobs =
      blobs.map (fun b =>
        (Decoder.decode loads sniff csvLine {} ((decompress b).getD b)).1) :=
  ⟨local_zip_run loads sniff csvLine decompress joinObj dumpsDict strOf
    zipRead ot items h, rfl⟩

/-- C1 witness: the amended statement at a concrete two-member queue. -/
theorem C1_fresh_decoder_per_member_witness :
    "EOP" ∉ ["[1, 2]", "a,b\nc,d"] ∧
    process_archive_local_zip loadsC sniffC csvLineC decompressC joinObjC
        dumpsDictC strOfC zipReadC "csv" (["[1, 2]", "a,b\nc,d"] ++ ["EOP"]) =
      ["[1, 2]", "a,b\nc,d"].flatMap (extract_zip_messages loadsC sniffC
        csvLineC decompressC joinObjC dumpsDictC strOfC zipReadC "csv") :=
  ⟨by decide,
    (C1_fresh_decoder_per_member loadsC sniffC csvLineC decompressC joinObjC
      dumpsDictC strOfC zipReadC "csv" ["[1, 2]", "a,b\nc,d"] [] (by decide)).1⟩

/-- C1 counterexample: a worker that processes a JSON member and then a
CSV member re-detects on the second member (classifying it `csv`, not the
cached `json`), so the code's per-member results differ from the
spec-modelled cached-decoder results on the same member sequence. -/
theorem C1_counterexample :
    (detect_data_type loadsC sniffC "[1, 2]").1 = DataType.json ∧
    (detect_data_type loadsC sniffC "a,b\nc,d").1 = DataType.csv ∧
    worker_decode_code loadsC sniffC csvLineC decompressC
        ["[1, 2]", "a,b\nc,d"] ≠
      worker_decode_cached_spec_model loadsC sniffC csvLineC decompressC {}
        ["[1, 2]", "a,b\nc,d"] := by decide

/-- C3 (amended): a blob classified `text` is not passed through: `decode`
builds its result only in the `csv` and `json` branches, so a `text` blob
decodes to the empty list and the writer receives one message rendering
that empty list, not the original lines. -/
theorem C3_text_decodes_to_empty {J : Type} (loads : String → Option (List J))
    (sniff : String → Dialect) (csvLine : Dialect → String → List String)
    (joinObj : J → String) (dumpsDict strOf : List (Row J) → String)
    (data : String) (h : (detect_data_type loads sniff data).1 = .text) :
    (Decoder.decode loads sniff csvLine {} data).1 = ([] : List (Row J)) ∧
    post_data_to_writer joinObj dumpsDict strOf
      (Decoder.decode loads sniff csvLine {} data).1 "text" = [strOf []] := by
  have hd : (Decoder.decode loads sniff csvLine {} data).1 = ([] : List (Row J)) := by
    unfold Decoder.decode
    simp [h]
  refine ⟨hd, ?_⟩
  rw [hd]
  unfold post_data_to_writer
  rw [if_neg (by decide), if_neg (by decide)]

/-- C3 witness: the amended statement at a concrete prose-like blob whose
second line sniffs a different delimiter. -/
theorem C3_text_decodes_to_empty_witness :
    (detect_data_type loadsNone sniffC "a,b\nc;d").1 = DataType.text ∧
    ((Decoder.decode loadsNone sniffC csvLineC {} "a,b\nc;d").1 =
        ([] : List (Row String)) ∧
      post_data_to_writer joinObjC dumpsDictC strOfC
        (Decoder.decode loadsNone sniffC csvLineC {} "a,b\nc;d").1 "text" =
        [strOfC []]) :=
  ⟨by decide, C3_text_decodes_to_empty loadsNone sniffC csvLineC joinObjC
    dumpsDictC strOfC "a,b\nc;d" (by decide)⟩

/-- C3 counterexample: a two-line blob classified `text` decodes to `[]`
and the writer message is the rendering `"[]"` of the empty list — not
the original lines, and not one output line per input line. -/
theorem C3_counterexample :
    (detect_data_type loadsNone sniffC "a,b\nc;d").1 = DataType.text ∧
    pySplitlines "a,b\nc;d" = ["a,b", "c;d"] ∧
    (Decoder.decode loadsNone sniffC csvLineC {} "a,b\nc;d").1 =
      ([] : List (Row String)) ∧
    post_data_to_writer joinObjC dumpsDictC strOfC
      (Decoder.decode loadsNone sniffC csvLineC {} "a,b\nc;d").1 "text" =
      ["[]"] ∧
    (["[]"] : List String) ≠ ["a,b", "c;d"] := by decide

/-- C4 (amended): `_decode_json_` attempts the full-blob parse and then
always also runs the line-by-line parse, regardless of whether the
full-blob parse succeeded; consequently, for a single-line blob that
parses as a JSON array, every element is yielded twice. -/
theorem C4_line_pass_always_runs {J : Type} (loads : String → Option (List J))
    (xs : List J) (s : String) (hline : pySplitlines s = [s])
    (hok : loads s = some xs) :
    decode_json loads s = xs ++ xs := by
  unfold decode_json
  rw [hline]
  simp [hok]

/-- C4 witness: the amended statement at a concrete one-line JSON array. -/
theorem C4_line_pass_always_runs_witness :
    pySplitlines "[1, 2]" = ["[1, 2]"] ∧
    loadsC "[1, 2]" = some ["1", "2"] ∧
    decode_json loadsC "[1, 2]" = ["1", "2"] ++ ["1", "2"] :=
  ⟨by decide, by decide,
    C4_line_pass_always_runs loadsC ["1", "2"] "[1, 2]" (by decide) (by decide)⟩

/-- C4 counterexample: the full-blob parse of `"[1, 2]"` succeeds, yet the
line-by-line parse still runs and each element is yielded twice. -/
theorem C4_counterexample :
    loadsC "[1, 2]" = some ["1", "2"] ∧
    decode_json loadsC "[1, 2]" = ["1", "2", "1", "2"] ∧
    List.count "1" (decode_json loadsC "[1, 2]") = 2 := by decide

/-- C6 (amended): the worker formats a decoded member into writer-queue
messages as follows — `csv`: one message per row, fields joined by the
fixed delimiter `;`; `json`: exactly one message for the whole member,
the serialization `json.dumps(dict(data))` of the full decoded list (not
one per object); any other output type: exactly one message, Python
`str` of the decoded list (not the literal blob). -/
theorem C6_writer_message_shape {J : Type} (joinObj : J → String)
    (dumpsDict strOf : List (Row J) → String) (data : List (Row J))
    (ot : String) (h1 : ot ≠ "csv") (h2 : ot ≠ "json") :
    post_data_to_writer joinObj dumpsDict strOf data "csv" =
      data.map (joinSemicolon joinObj) ∧
    post_data_to_writer joinObj dumpsDict strOf data "json" = [dumpsDict data] ∧
    (post_data_to_writer joinObj dumpsDict strOf data "json").length = 1 ∧
    post_data_to_writer joinObj dumpsDict strOf data ot = [strOf data] := by
  refine ⟨?_, ?_, ?_, ?_⟩ <;> unfold post_data_to_writer
  · rw [if_pos rfl]
  · rw [if_neg (by decide), if_pos rfl]
  · rw [if_neg (by decide), if_pos rfl]; rfl
  · rw [if_neg h1, if_neg h2]

/-- C6 witness: the amended statement at a concrete decoded list and the
output type `text`. -/
theorem C6_writer_message_shape_witness :
    ("text" : String) ≠ "csv" ∧
    (post_data_to_writer joinObjC dumpsDictC strOfC
        [Row.csvRow ["a", "b"], Row.csvRow ["c", "d"]] "csv" =
        ["a;b", "c;d"] ∧
      post_data_to_writer joinObjC dumpsDictC strOfC
        [Row.csvRow ["a", "b"], Row.csvRow ["c", "d"]] "text" =
        [strOfC [Row.csvRow ["a", "b"], Row.csvRow ["c", "d"]]]) :=
  ⟨by decide,
    by
      have h := C6_writer_message_shape joinObjC dumpsDictC strOfC
        [Row.csvRow ["a", "b"], Row.csvRow ["c", "d"]] "text" (by decide)
        (by decide)
      exact ⟨by rw [h.1]; decide, h.2.2.2⟩⟩

/-- C6 counterexample: with output type `json` and a member that decoded
to two objects, the worker pushes exactly one message (the serialization
of `dict(data)`), not one per object; and the `text` branch pushes
`str` of the decoded list, not the literal string. -/
theorem C6_counterexample :
    (post_data_to_writer joinObjC dumpsDictC strOfC
        [Row.jsonObj "1", Row.jsonObj "2"] "json").length = 1 ∧
    ([Row.jsonObj "1", Row.jsonObj "2"] : List (Row String)).length = 2 ∧
    (1 : Nat) ≠ 2 ∧
    post_data_to_writer joinObjC dumpsDictC strOfC
      ([] : List (Row String)) "text" = ["[]"] := by decide

/-- C7: for every valid zip archive (with distinct member names, as the
zip name index assumes) and every tar archive, the indexer enqueues, in
archive order, exactly the members that are regular files (for zip: name
not ending in the directory marker `/`) with size greater than zero;
directories and empty entries are never enqueued. -/
theorem C7_indexer_eligibility (arch : List ZipEntry) (tarch : List TarMember)
    (hn : (arch.map ZipEntry.name).Nodup) :
    queue_archive_files_zip arch =
      (arch.filter
        (fun e => !endsWithSlash e.name && decide (0 < e.file_size))).map
        ZipEntry.name ∧
    queue_archive_files_tar tarch =
      tarch.filter (fun m => m.isreg && decide (0 < m.size)) ∧
    (∀ n ∈ queue_archive_files_zip arch,
      ∃ e ∈ arch, e.name = n ∧ endsWithSlash n = false ∧ 0 < e.file_size) ∧
    ∀ m ∈ queue_archive_files_tar tarch, m.isreg = true ∧ 0 < m.size := by
  refine ⟨zip_queue_eq_filter arch hn, rfl, ?_, ?_⟩
  · intro n hnq
    rw [zip_queue_eq_filter arch hn] at hnq
    rcases List.mem_map.mp hnq with ⟨e, hef, rfl⟩
    have hm := List.mem_filter.mp hef
    have hb := hm.2
    simp only [Bool.and_eq_true, Bool.not_eq_true', decide_eq_true_eq] at hb
    exact ⟨e, hm.1, rfl, hb.1, hb.2⟩
  · intro m hmq
    have hm := List.mem_filter.mp hmq
    have hb := hm.2
    simp only [Bool.and_eq_true, decide_eq_true_eq] at hb
    exact hb

/-- C7 witness: the eligibility statement at a concrete zip and tar
archive with a directory, an empty entry, and eligible members. -/
theorem C7_indexer_eligibility_witness :
    (([⟨"d/", 0⟩, ⟨"a.csv", 3⟩, ⟨"e.txt", 0⟩] : List ZipEntry).map
        ZipEntry.name).Nodup ∧
    queue_archive_files_zip [⟨"d/", 0⟩, ⟨"a.csv", 3⟩, ⟨"e.txt", 0⟩] =
      (([⟨"d/", 0⟩, ⟨"a.csv", 3⟩, ⟨"e.txt", 0⟩] : List ZipEntry).filter
        (fun e => !endsWithSlash e.name && decide (0 < e.file_size))).map
        ZipEntry.name :=
  ⟨by decide,
    (C7_indexer_eligibility [⟨"d/", 0⟩, ⟨"a.csv", 3⟩, ⟨"e.txt", 0⟩]
      [⟨"x", 0, true⟩, ⟨"y", 2, true⟩, ⟨"z", 3, false⟩] (by decide)).1⟩

/-- C8 (amended): when the archive is neither zip nor tar, the
`IOError` raised by `queue_archive_files` terminates only the indexer
subprocess and is raised before any member is enqueued; the coordinator's
`indexer.join()` returns normally, the run proceeds through the shutdown
protocol, the writer creates the output artifact (with the messages the
workers produce from an empty work sequence), and the process exits 0 —
there is no process-ending error and an (empty) output artifact is
produced. -/
theorem C8_malformed_archive_run (workerOut : List WorkItem → List String) :
    (run_local_pipeline workerOut .invalid).indexerError =
      some "could not match archive to zip or tar format" ∧
    (run_local_pipeline workerOut .invalid).artifact = some (workerOut []) ∧
    (run_local_pipeline workerOut .invalid).exitCode = 0 :=
  ⟨rfl, rfl, rfl⟩

/-- C8 counterexample: on a malformed archive the run still produces an
output artifact (the writer's file, holding zero records) and exits 0,
contradicting "fatal, process-ending error and no output artifact at
all". -/
theorem C8_counterexample :
    (run_local_pipeline workerOutC .invalid).artifact = some [] ∧
    (run_local_pipeline workerOutC .invalid).artifact ≠ none ∧
    (run_local_pipeline workerOutC .invalid).exitCode = 0 := by decide

/-- C10: the worker's sentinel test accepts any string equal to `"EOP"`,
and the zip indexer enqueues eligible members as plain path strings; so an
eligible zip member named exactly `"EOP"` is enqueued, yet no worker ever
extracts a member item equal to `"EOP"` — the worker that dequeues it
exits its loop there, leaving the rest of its queue unprocessed. -/
theorem C10_eop_member_acts_as_sentinel (arch : List ZipEntry) (e : ZipEntry)
    (hn : (arch.map ZipEntry.name).Nodup) (he : e ∈ arch)
    (hname : e.name = "EOP") (hsize : 0 < e.file_size)
    (items pre post : List String) (hpre : "EOP" ∉ pre) :
    "EOP" ∈ queue_archive_files_zip arch ∧
    "EOP" ∉ worker_extracted_members items ∧
    worker_extracted_members (pre ++ "EOP" :: post) =
      worker_extracted_members pre := by
  refine ⟨?_, eop_never_extracted items, worker_stops_at_eop pre post hpre⟩
  rw [zip_queue_eq_filter arch hn]
  refine List.mem_map.mpr ⟨e, List.mem_filter.mpr ⟨he, ?_⟩, hname⟩
  rw [hname]
  have hsl : endsWithSlash "EOP" = false := by decide
  simp [hsl, hsize]

/-- C10 witness: a concrete zip archive with an eligible member named
`"EOP"` and a concrete worker queue. -/
theorem C10_eop_member_acts_as_sentinel_witness :
    (([⟨"EOP", 5⟩, ⟨"a.csv", 1⟩] : List ZipEntry).map ZipEntry.name).Nodup ∧
    ("EOP" ∈ queue_archive_files_zip [⟨"EOP", 5⟩, ⟨"a.csv", 1⟩] ∧
      "EOP" ∉ worker_extracted_members ["a.csv", "EOP", "b.csv"] ∧
      worker_extracted_members (["a.csv"] ++ "EOP" :: ["b.csv"]) =
        worker_extracted_members ["a.csv"]) :=
  ⟨by decide,
    C10_eop_member_acts_as_sentinel [⟨"EOP", 5⟩, ⟨"a.csv", 1⟩] ⟨"EOP", 5⟩
      (by decide) (by decide) (by decide) (by decide)
      ["a.csv", "EOP", "b.csv"] ["a.csv"] ["b.csv"] (by decide)⟩

/-- The remote-variant worker on a zip archive uploads each queued path
exactly once, to key `prefix ++ path`, with the member's raw bytes. -/
theorem swift_zip_run (zipRead : String → String) (con pf : String) :
    ∀ paths : List String, "EOP" ∉ paths →
      process_archive_swift_zip zipRead con pf (paths ++ ["EOP"]) =
        paths.map (fun f =>
          { container := con, key := pf ++ f, contents := zipRead f }) := by
  intro paths
  induction paths with
  | nil => intro _; simp [process_archive_swift_zip]
  | cons f rest ih =>
    intro h
    have hf : f ≠ "EOP" := fun hc => h (hc ▸ List.mem_cons_self f rest)
    simp only [List.cons_append, process_archive_swift_zip, if_neg hf,
      List.map_cons, List.append_eq]
    rw [ih (fun hc => h (List.mem_cons_of_mem f hc))]

/-- The remote-variant worker on a tar archive uploads each queued member
exactly once, but to key `prefix ++ str(TarInfo)` — the dequeued
`TarInfo` object is interpolated, not its path. -/
theorem swift_tar_run (tarRead : TarMember → String) (tarReadStr : String → String)
    (tarInfoStr : TarMember → String) (con pf : String) :
    ∀ ms : List TarMember,
      process_archive_swift_tar tarRead tarReadStr tarInfoStr con pf
          (ms.map .mem ++ [.strItem "EOP"]) =
        ms.map (fun m =>
          { container := con, key := pf ++ tarInfoStr m, contents := tarRead m }) := by
  intro ms
  induction ms with
  | nil => simp [process_archive_swift_tar]
  | cons m rest ih =>
    simp only [List.map_cons, List.cons_append, process_archive_swift_tar,
      List.append_eq]
    rw [ih]

/-- C9 (amended): in the remote-upload variant each queued member is
uploaded exactly once with its raw bytes; for a zip archive the object key
is `prefix ++ member-path`, but for a tar archive the key is
`prefix ++ str(TarInfo)` because the worker interpolates the dequeued
`TarInfo` object itself into the key format rather than its path. -/
theorem C9_upload_keys (zipRead : String → String) (tarRead : TarMember → String)
    (tarReadStr : String → String) (tarInfoStr : TarMember → String)
    (con pf : String) (paths : List String) (ms : List TarMember)
    (hp : "EOP" ∉ paths) :
    process_archive_swift_zip zipRead con pf (paths ++ ["EOP"]) =
      paths.map (fun f =>
        { container := con, key := pf ++ f, contents := zipRead f }) ∧
    process_archive_swift_tar tarRead tarReadStr tarInfoStr con pf
        (ms.map .mem ++ [.strItem "EOP"]) =
      ms.map (fun m =>
        { container := con, key := pf ++ tarInfoStr m, contents := tarRead m }) :=
  ⟨swift_zip_run zipRead con pf paths hp,
    swift_tar_run tarRead tarReadStr tarInfoStr con pf ms⟩

/-- C9 witness: the amended statement at a concrete zip queue and a
concrete tar queue. -/
theorem C9_upload_keys_witness :
    "EOP" ∉ ["data/out.csv"] ∧
    (process_archive_swift_zip zipReadC "con" "runs/42/"
        (["data/out.csv"] ++ ["EOP"]) =
      [{ container := "con", key := "runs/42/" ++ "data/out.csv",
          contents := zipReadC "data/out.csv" }] ∧
    process_archive_swift_tar tarReadC tarReadStrC tarInfoStrC "con" "runs/42/"
        (([⟨"data/out.csv", 11, true⟩] : List TarMember).map .mem ++
          [.strItem "EOP"]) =
      [{ container := "con",
          key := "runs/42/" ++ tarInfoStrC ⟨"data/out.csv", 11, true⟩,
          contents := tarReadC ⟨"data/out.csv", 11, true⟩ }]) :=
  ⟨by decide,
    C9_upload_keys zipReadC tarReadC tarReadStrC tarInfoStrC "con" "runs/42/"
      ["data/out.csv"] [⟨"data/out.csv", 11, true⟩] (by decide)⟩

/-- C9 counterexample: for a tar archive with member path
`"data/out.csv"` and prefix `"runs/42/"`, no upload goes to the claimed
key `"runs/42/data/out.csv"`; the single upload's key is the `TarInfo`
object's string rendering appended to the prefix. -/
theorem C9_counterexample :
    process_archive_swift_tar tarReadC tarReadStrC tarInfoStrC "con" "runs/42/"
        [.mem ⟨"data/out.csv", 11, true⟩, .strItem "EOP"] =
      [{ container := "con", key := "runs/42/<tarfile.TarInfo object at 0x7f>",
          contents := "bytes" }] ∧
    ∀ u ∈ process_archive_swift_tar tarReadC tarReadStrC tarInfoStrC "con"
        "runs/42/" [.mem ⟨"data/out.csv", 11, true⟩, .strItem "EOP"],
      u.key ≠ "runs/42/data/out.csv" := by decide

/-- C5 (amended): after both JSON attempts fail, the CSV-vs-text step
samples up to the first 10 lines with the sample window fixed before the
loop (`lines[1:ins]` is evaluated once, so a skipped comment increments
only the exhaustion counter and never brings later lines into the sample);
a comment line yields `text` when the counter equals the total line count
(in particular always, when the blob has at most 10 lines); a sampled line
whose sniffed delimiter or quotechar disagrees with line 1's yields
`text`; completing the loop without disagreement yields `csv`. -/
theorem C5_fixed_sample_window :
    (∀ (sniff : String → Dialect) (l0 x y : String) (pre post : List String),
      pre.length = 9 →
      detect_csv_text_code sniff (l0 :: pre ++ x :: post) =
        detect_csv_text_code sniff (l0 :: pre ++ y :: post)) ∧
    (∀ (sniff : String → Dialect) (l0 r : String) (rs : List String),
      rs.length ≤ 8 → startsWithHash r = true →
      detect_csv_text_code sniff (l0 :: r :: rs) = .text) ∧
    (∀ (sniff : String → Dialect) (l0 r : String) (rs : List String),
      startsWithHash r = false →
      ((sniff r).delimiter ≠ (sniff l0).delimiter ∨
        (sniff r).quotechar ≠ (sniff l0).quotechar) →
      detect_csv_text_code sniff (l0 :: r :: rs) = .text) ∧
    (∀ (sniff : String → Dialect) (lines : List String),
      (∀ l ∈ (lines.take (if lines.length ≤ 10 then lines.length else 10)).drop 1,
        startsWithHash l = false ∧
        (sniff l).delimiter = (sniff (firstLine lines)).delimiter ∧
        (sniff l).quotechar = (sniff (firstLine lines)).quotechar) →
      detect_csv_text_code sniff lines = .csv) := by
  refine ⟨?_, ?_, ?_, ?_⟩
  · intro sniff l0 x y pre post h9
    have hlx : (l0 :: pre ++ x :: post).length = 11 + post.length := by
      simp only [List.length_cons, List.length_append, h9]
      omega
    have hly : (l0 :: pre ++ y :: post).length = 11 + post.length := by
      simp only [List.length_cons, List.length_append, h9]
      omega
    have hA : (l0 :: pre).length = 10 := by simp [h9]
    have htx : List.take 10 (l0 :: pre ++ x :: post) = l0 :: pre :=
      List.take_left' hA
    have hty : List.take 10 (l0 :: pre ++ y :: post) = l0 :: pre :=
      List.take_left' hA
    have hfx : firstLine (l0 :: pre ++ x :: post) = l0 := rfl
    have hfy : firstLine (l0 :: pre ++ y :: post) = l0 := rfl
    simp only [detect_csv_text_code, hlx, hly, hfx, hfy]
    rw [if_neg (show ¬ 11 + post.length ≤ 10 by omega)]
    rw [htx, hty]
  · intro sniff l0 r rs h8 hr
    have hlen : (l0 :: r :: rs).length = rs.length + 2 := by simp
    have hslice : ((l0 :: r :: rs).take (rs.length + 2)).drop 1 =
        r :: rs.take rs.length := rfl
    simp only [detect_csv_text_code, hlen, firstLine]
    rw [if_pos (by omega), hslice, List.take_length]
    simp [detectLoop, hr]
  · intro sniff l0 r rs hr hdis
    by_cases hc : (l0 :: r :: rs).length ≤ 10
    · have hlen : (l0 :: r :: rs).length = rs.length + 2 := by simp
      have hslice : ((l0 :: r :: rs).take (rs.length + 2)).drop 1 =
          r :: rs.take rs.length := rfl
      simp only [detect_csv_text_code, hlen, firstLine]
      rw [if_pos (by simp at hc; omega), hslice, List.take_length]
      unfold detectLoop
      rw [hr]
      simp only [Bool.false_eq_true, if_false]
      rw [if_pos hdis]
    · have hslice : ((l0 :: r :: rs).take 10).drop 1 = r :: rs.take 8 := rfl
      simp only [detect_csv_text_code, firstLine]
      rw [if_neg hc, hslice]
      unfold detectLoop
      rw [hr]
      simp only [Bool.false_eq_true, if_false]
      rw [if_pos hdis]
  · intro sniff lines hagree
    simp only [detect_csv_text_code, firstLine] at hagree ⊢
    exact detectLoop_csv_of_agree sniff _ _ _ _ hagree

/-- C5 witness: each part of the amended statement at concrete line
lists. -/
theorem C5_fixed_sample_window_witness :
    detect_csv_text_code sniffC
        ("a,b" :: ["#c", "x,y", "x,y", "x,y", "x,y", "x,y", "x,y", "x,y", "x,y"]
          ++ "p;q" :: ["r,s"]) =
      detect_csv_text_code sniffC
        ("a,b" :: ["#c", "x,y", "x,y", "x,y", "x,y", "x,y", "x,y", "x,y", "x,y"]
          ++ "z,z" :: ["r,s"]) ∧
    detect_csv_text_code sniffC ("a,b" :: "#c" :: ["x,y"]) = DataType.text ∧
    detect_csv_text_code sniffC ("a,b" :: "p;q" :: []) = DataType.text ∧
    detect_csv_text_code sniffC ["a,b", "x,y"] = DataType.csv := by
  have h := C5_fixed_sample_window
  exact ⟨h.1 sniffC "a,b" "p;q" "z,z"
      ["#c", "x,y", "x,y", "x,y", "x,y", "x,y", "x,y", "x,y", "x,y"] ["r,s"]
      (by decide),
    h.2.1 sniffC "a,b" "#c" ["x,y"] (by decide) (by decide),
    h.2.2.1 sniffC "a,b" "p;q" [] (by decide) (by decide),
    h.2.2.2 sniffC ["a,b", "x,y"] (by decide)⟩

/-- C5 counterexample: a 12-line blob whose line 1 is a comment.  Under
the claim's window extension the disagreeing line 10 (`"p;q"`) would be
sampled and the blob classified `text` (as the spec-modelled detector
does); the code never extends the evaluated slice, never sniffs line 10,
and classifies `csv`. -/
theorem C5_counterexample :
    pySplitNl dataC5 =
      ["a,b", "#c", "x,y", "x,y", "x,y", "x,y", "x,y", "x,y", "x,y", "x,y",
        "p;q", "r,s"] ∧
    (detect_data_type loadsNone sniffC dataC5).1 = DataType.csv ∧
    detect_csv_text_code sniffC (pySplitNl dataC5) = DataType.csv ∧
    detect_window_spec_model sniffC (pySplitNl dataC5) = DataType.text := by
  decide

/-- C2: in the coordinator's event order, for any worker count `n` and any
member sequence: every real member enqueue precedes every work-queue
sentinel enqueue; every work-queue sentinel enqueue follows the indexer
join; the single output-queue sentinel enqueue follows every worker join;
exactly one work-queue sentinel is enqueued per worker and exactly one
output-queue sentinel in total — for the local variant, and the
member-before-sentinel ordering holds in the remote variant as well. -/
theorem C2_shutdown_protocol {M : Type} [DecidableEq M] (ms : List M) (n : Nat)
    (i j p k l i2 j2 : Nat) (m m2 : M) (w : Nat)
    (h1 : (coordinator_trace ms n)[i]? = some (.putWork m))
    (h2 : (coordinator_trace ms n)[j]? = some .putWorkSentinel)
    (hp : (coordinator_trace ms n)[p]? = some .indexerJoined)
    (h3 : (coordinator_trace ms n)[k]? = some (.workerJoined w))
    (h4 : (coordinator_trace ms n)[l]? = some .putOutSentinel)
    (h5 : (coordinator_trace_swift ms n)[i2]? = some (.putWork m2))
    (h6 : (coordinator_trace_swift ms n)[j2]? = some .putWorkSentinel) :
    i < j ∧ p < j ∧ k < l ∧ i2 < j2 ∧
      (coordinator_trace ms n).count .putWorkSentinel = n ∧
      (coordinator_trace ms n).count .putOutSentinel = 1 := by
  refine ⟨?_, ?_, ?_, ?_, ?_, ?_⟩
  · have hT : coordinator_trace ms n =
        ms.map Ev.putWork ++ ([Ev.indexerJoined] ++
          (List.replicate n Ev.putWorkSentinel ++
            ((List.range n).map Ev.workerJoined ++
              [Ev.putOutSentinel, Ev.writerJoined]))) := by
      simp [coordinator_trace]
    rw [hT] at h1 h2
    exact index_lt_of_append_split h1 h2 (by simp [List.mem_replicate])
      (by simp)
  · have hT : coordinator_trace ms n =
        (ms.map Ev.putWork ++ [Ev.indexerJoined]) ++
          (List.replicate n Ev.putWorkSentinel ++
            ((List.range n).map Ev.workerJoined ++
              [Ev.putOutSentinel, Ev.writerJoined])) := by
      simp [coordinator_trace]
    rw [hT] at hp h2
    exact index_lt_of_append_split hp h2 (by simp [List.mem_replicate])
      (by simp)
  · have hT : coordinator_trace ms n =
        (ms.map Ev.putWork ++ ([Ev.indexerJoined] ++
          (List.replicate n Ev.putWorkSentinel ++
            (List.range n).map Ev.workerJoined))) ++
          [Ev.putOutSentinel, Ev.writerJoined] := by
      simp [coordinator_trace]
    rw [hT] at h3 h4
    exact index_lt_of_append_split h3 h4 (by simp)
      (by simp [List.mem_replicate])
  · have hT : coordinator_trace_swift ms n =
        ms.map Ev.putWork ++ ([Ev.indexerJoined] ++
          (List.replicate n Ev.putWorkSentinel ++
            (List.range n).map Ev.workerJoined)) := by
      simp [coordinator_trace_swift]
    rw [hT] at h5 h6
    exact index_lt_of_append_split h5 h6 (by simp [List.mem_replicate])
      (by simp)
  · have c1 : (ms.map Ev.putWork).count Ev.putWorkSentinel = 0 :=
      List.count_eq_zero.mpr (by simp)
    have c2 : (((List.range n).map Ev.workerJoined :
        List (Ev M))).count Ev.putWorkSentinel = 0 :=
      List.count_eq_zero.mpr (by simp)
    have c4 : (([Ev.indexerJoined] : List (Ev M))).count Ev.putWorkSentinel = 0 :=
      List.count_eq_zero.mpr (by simp)
    have c5 : (([Ev.putOutSentinel, Ev.writerJoined] :
        List (Ev M))).count Ev.putWorkSentinel = 0 :=
      List.count_eq_zero.mpr (by simp)
    simp only [coordinator_trace, List.count_append, c1, c2, c4, c5,
      List.count_replicate_self]
    omega
  · have c1 : (ms.map Ev.putWork).count Ev.putOutSentinel = 0 :=
      List.count_eq_zero.mpr (by simp)
    have c2 : (((List.range n).map Ev.workerJoined :
        List (Ev M))).count Ev.putOutSentinel = 0 :=
      List.count_eq_zero.mpr (by simp)
    have c3 : ((List.replicate n Ev.putWorkSentinel :
        List (Ev M))).count Ev.putOutSentinel = 0 :=
      List.count_eq_zero.mpr (by simp [List.mem_replicate])
    have c4 : (([Ev.indexerJoined] : List (Ev M))).count Ev.putOutSentinel = 0 :=
      List.count_eq_zero.mpr (by simp)
    have c6 : (([Ev.putOutSentinel, Ev.writerJoined] :
        List (Ev M))).count Ev.putOutSentinel = 1 := by
      simp [List.count_cons]
    simp only [coordinator_trace, List.count_append, c1, c2, c3, c4, c6]

/-- C2 witness: the ordering statement at a one-member archive and a
single worker. -/
theorem C2_shutdown_protocol_witness :
    (coordinator_trace ["a"] 1)[0]? = some (.putWork "a") ∧
    (coordinator_trace ["a"] 1)[2]? = some .putWorkSentinel ∧
    ((0 : Nat) < 2 ∧ (1 : Nat) < 2 ∧ (3 : Nat) < 4 ∧ (0 : Nat) < 2 ∧
      (coordinator_trace ["a"] 1).count .putWorkSentinel = 1 ∧
      (coordinator_trace ["a"] 1).count .putOutSentinel = 1) :=
  ⟨by decide, by decide,
    C2_shutdown_protocol ["a"] 1 0 2 1 3 4 0 2 "a" "a" 0 (by decide) (by decide)
      (by decide) (by decide) (by decide) (by decide) (by decide)⟩

end ArchiveEtl
